import Mathlib

set_option autoImplicit false

/-!
Verification development for the `git-squash-tree` tool
(`cmd/git-squash-tree/main.go`, `internal/repo/repo.go` and the four hook
scripts embedded as string constants in `main.go`).

The embedding models:
* the repository-discovery walk (`findGitRepo` / `repo.FindGitRepo`);
* the `add-metadata` command (`runAddMetadata`) over an abstract
  ref-resolution environment and a notes store;
* the `show` command's error surface (`runShowTree`);
* the four installed hook scripts (`pre-rebase`, `post-rewrite`,
  `post-merge`, `prepare-commit-msg`) as state transformers that also
  return the script's exit status.

External git queries (`rev-parse`, `merge-base`, `merge-base
--is-ancestor`, `rev-list`) are abstracted as environment capabilities,
exactly as the programs consume them.
-/

namespace SquashTree

/-- A recorded squash fact: `root` is the squash commit, `base` the commit the
squashed commits branched from, `children` the subsumed commits in their
original order, `strategy` the free-form strategy string the CLI passes
through (`auto` by default). Mirrors the metadata record written by
`git.WriteMetadata`. -/
structure SquashFact where
  root : String
  base : String
  children : List String
  strategy : String
deriving DecidableEq

/-! ## Repository discovery (`findGitRepo` in main.go, `repo.FindGitRepo`) -/

/-- What `os.Stat` reports at a path: a directory or a regular file. -/
inductive FsEntry where
  | dir
  | file
deriving DecidableEq

/-- An abstract filesystem: an absolute path is a list of components from the
root (`[]` is the filesystem root), and `stat` returns what is there, if
anything. -/
structure Fs where
  stat : List String → Option FsEntry

/-- Embedding of `findGitRepo` (main.go) / `repo.FindGitRepo` (repo.go), which
are textually identical: starting from the absolute path `p`, loop upward;
at each directory, if `stat(path/.git)` succeeds and reports a directory,
return that directory; otherwise step to the parent; when the parent equals
the path (filesystem root reached and checked), fail. -/
def findGitRepo (fs : Fs) (p : List String) : Option (List String) :=
  if fs.stat (p ++ [".git"]) = some FsEntry.dir then some p
  else
    match p with
    | [] => none
    | x :: xs => findGitRepo fs (x :: xs).dropLast
termination_by p.length
decreasing_by simp [List.dropLast]

/-- The chain of directories the loop in `findGitRepo` visits: the start path
first, then each parent up to and including the root. -/
def ancestorChain (p : List String) : List (List String) :=
  p ::
    match p with
    | [] => []
    | x :: xs => ancestorChain (x :: xs).dropLast
termination_by p.length
decreasing_by simp [List.dropLast]

/-- The test the loop applies at each visited directory: does it contain an
entry named `.git` that is a directory? -/
def hasGitDir (fs : Fs) (q : List String) : Bool :=
  decide (fs.stat (q ++ [".git"]) = some FsEntry.dir)

/-! ## The `add-metadata` command (`runAddMetadata` in main.go) -/

/-- The environment `runAddMetadata` runs in: whether `findGitRepo(".")`
succeeds, the outcome of `git rev-parse --short <ref>` for each ref
(`resolveCommitHash`; `none` means the ref does not resolve), and whether
the underlying notes store accepts writes (`git.WriteMetadata`). -/
structure RepoEnv where
  repoFound : Bool
  resolve : String → Option String
  writeOk : Bool

/-- The notes store under `refs/notes/squash-tree`: a sequence of
(commit, fact) entries, at most one per commit. -/
structure NotesStore where
  facts : List (String × SquashFact)
deriving DecidableEq

/-- Modelled from the spec: `internal/git`'s `NotesReader.HasMetadata` is not
under src/. Per the spec, the Metadata Graph is a "mapping from CommitRef to
at most one SquashFact" and the recorder "checks the Metadata Graph for an
existing fact keyed by `root`"; so `hasMetadata` reports whether the store
holds a fact keyed by the given ref. -/
def hasMetadata (s : NotesStore) (ref : String) : Bool :=
  (s.facts.lookup ref).isSome

/-- Modelled from the spec: `internal/git`'s `WriteMetadata` is not under
src/. Per the spec's external-interface section the store's write semantics
are "create if absent, otherwise ignore", keyed by the (already canonical)
root. -/
def writeMetadata (s : NotesStore) (root base : String) (children : List String)
    (strategy : String) : NotesStore :=
  if hasMetadata s root then s
  else { facts := s.facts ++ [(root, ⟨root, base, children, strategy⟩)] }

/-- Go's `strings.Split(s, ",")` on the character list of `s`: fields between
commas, empty fields preserved; the empty string yields one empty field. -/
def splitComma : List Char → List (List Char)
  | [] => [[]]
  | c :: rest =>
    if c = ',' then [] :: splitComma rest
    else
      match splitComma rest with
      | [] => [[c]]
      | f :: fs => (c :: f) :: fs

/-- The whitespace test behind Go's `strings.TrimSpace`, restricted to the
ASCII whitespace that can occur in the hook-supplied ref lists. -/
def isSpaceChar (c : Char) : Bool :=
  c = ' ' ∨ c = '\t' ∨ c = '\n' ∨ c = '\r'

/-- Go's `strings.TrimSpace` on a character list: drop leading and trailing
whitespace. -/
def trimChars (l : List Char) : List Char :=
  ((l.dropWhile isSpaceChar).reverse.dropWhile isSpaceChar).reverse

/-- The comma-split fields of the `--children` flag value, as strings. -/
def childFields (children : String) : List String :=
  (splitComma children.data).map (fun l => String.mk l)

/-- Embedding of the child-resolution loop in `runAddMetadata`: each comma
field is trimmed, empty entries are skipped, and each remaining entry is
resolved, failing on the first unresolvable one. Error messages are
modelled by the fixed prefix of the Go format string. -/
def resolveChildren (env : RepoEnv) : List String → Except String (List String)
  | [] => Except.ok []
  | c :: rest =>
    if String.mk (trimChars c.data) = "" then resolveChildren env rest
    else
      match env.resolve (String.mk (trimChars c.data)) with
      | none => Except.error "Error: invalid child"
      | some short => Except.map (fun ks => short :: ks) (resolveChildren env rest)

/-- The observable outcome of a CLI subcommand: the process exit code, the
diagnostic printed on standard error (if any; modelled by the fixed prefix
of the Go format string), and the resulting notes store. -/
structure Outcome where
  exitCode : Nat
  stderrMsg : Option String
  store : NotesStore
deriving DecidableEq

/-- Embedding of `runAddMetadata` (main.go): require the three flags, find the
repository, return silently (exit 0) when a fact keyed by the *supplied*
root already exists, otherwise canonicalize root, base and children in that
order (failing with exit 1 on the first unresolvable ref), require at least
one child, and write the fact. -/
def runAddMetadata (env : RepoEnv) (store : NotesStore)
    (root base children strategy : String) : Outcome :=
  if root = "" ∨ base = "" ∨ children = "" then
    ⟨1, some "add-metadata requires --root, --base, and --children", store⟩
  else if ¬ env.repoFound then
    ⟨1, some "Error: not a git repository", store⟩
  else if hasMetadata store root then
    ⟨0, none, store⟩
  else
    match env.resolve root with
    | none => ⟨1, some "Error: invalid root", store⟩
    | some rootShort =>
      match env.resolve base with
      | none => ⟨1, some "Error: invalid base", store⟩
      | some baseShort =>
        match resolveChildren env (childFields children) with
        | Except.error msg => ⟨1, some msg, store⟩
        | Except.ok childrenShort =>
          if childrenShort = [] then
            ⟨1, some "Error: at least one child required", store⟩
          else if env.writeOk then
            ⟨0, none, writeMetadata store rootShort baseShort childrenShort strategy⟩
          else
            ⟨1, some "Error writing metadata", store⟩

/-! ## The `show` command's error surface (`runShowTree` in main.go) -/

/-- The environment `runShowTree` runs in. `internal/tree`'s `BuildTree` is
not under src/; only its success or failure is relevant to the command's
error surface, so it is abstracted as a capability returning either an
error or the rendered tree. -/
structure ShowEnv where
  repoFound : Bool
  resolve : String → Option String
  buildTree : String → Except String String

/-- Embedding of `runShowTree` (main.go): find the repository, resolve the
commit ref, build and print the tree; each failure exits 1 with its
diagnostic (modelled by the fixed prefix of the Go format string). -/
def runShowTree (env : ShowEnv) (ref : String) : Nat × Option String :=
  if ¬ env.repoFound then
    (1, some "Error: not a git repository or .git not found")
  else
    match env.resolve ref with
    | none => (1, some "Error: failed to resolve commit reference")
    | some hash =>
      match env.buildTree hash with
      | Except.error _ => (1, some "Error building squash tree")
      | Except.ok _ => (0, none)

/-- Whether a diagnostic is prefixed `Error:` (the prefix the spec promises
for command-surface failures). -/
def errPrefixed (s : String) : Bool :=
  List.isPrefixOf "Error:".data s.data

/-- The child refs the caller supplies, after the trimming and empty-field
skipping the code performs, in caller order; used to state that the stored
child order is the supplied order. -/
def trimmedChildArgs (children : String) : List String :=
  ((childFields children).map (fun c => String.mk (trimChars c.data))).filter
    (fun c => c ≠ "")

/-! ## The hook scripts (string constants in main.go)

Each script is modelled as a function of an abstract git environment and of
the script's inputs, returning what it emits together with its exit status.
External git commands are capabilities:
`resolvable r` is `git rev-parse r` succeeding, `isAncestor a b` is
`git merge-base --is-ancestor a b` succeeding, `mergeBase a b` is the output
of `git merge-base a b` (`none` on failure), `parentOf c` the output of
`git rev-parse c^`, and `revListRev b o` the output of
`git rev-list --reverse b..o` (the commits in `(b, o]`, oldest first). -/

structure GitOps where
  resolvable : String → Bool
  isAncestor : String → String → Bool
  mergeBase : String → String → Option String
  parentOf : String → Option String
  revListRev : String → String → List String

/-- Embedding of the `SQUASHED` accumulation in the session-state branch of
the `post-rewrite` script: for each previously recorded commit `old`, the
script runs `git rev-parse "$old"`; if that succeeds it appends `old` when
`git merge-base --is-ancestor "$old" "$new_sha"` succeeds, and if it fails
it appends `old` unconditionally. -/
def sessionSubsumed (g : GitOps) (newSha : String) (olds : List String) : List String :=
  olds.filter (fun old => if g.resolvable old then g.isAncestor old newSha else true)

/-- The subsumed set as the spec describes it: "treat every commit that is
unresolvable or not an ancestor as subsumed". Written from the spec's
words, for comparison with `sessionSubsumed`, which is written from the
script. -/
def sessionSubsumedSpec (g : GitOps) (newSha : String) (olds : List String) : List String :=
  olds.filter (fun old => (!g.resolvable old) || (!g.isAncestor old newSha))

/-- One iteration of the session-state branch of `post-rewrite` over a
`(old_sha, new_sha)` pair from stdin: skip unless `old_sha != new_sha` and
`new_sha` is non-empty; collect the subsumed set; invoke `add-metadata`
(modelled as emitting the fact) only when the subsumed set has more than
one member. -/
def sessionPairFact (g : GitOps) (base : String) (olds : List String)
    (pr : String × String) : Option SquashFact :=
  if pr.1 ≠ pr.2 ∧ pr.2 ≠ "" then
    if 1 < (sessionSubsumed g pr.2 olds).length then
      some ⟨pr.2, base, sessionSubsumed g pr.2 olds, "auto"⟩
    else none
  else none

/-- The session-state iteration as the spec describes it, differing from
`sessionPairFact` only in which commits count as subsumed. -/
def sessionPairFactSpec (g : GitOps) (base : String) (olds : List String)
    (pr : String × String) : Option SquashFact :=
  if pr.1 ≠ pr.2 ∧ pr.2 ≠ "" then
    if 1 < (sessionSubsumedSpec g pr.2 olds).length then
      some ⟨pr.2, base, sessionSubsumedSpec g pr.2 olds, "auto"⟩
    else none
  else none

/-- One iteration of the fallback branch of `post-rewrite` over a
`(old_sha, new_sha)` pair: skip unless `old_sha != new_sha` and `new_sha`
non-empty; `BASE` is `git merge-base old new`, else `git rev-parse new^`,
else empty (skip); `CHILDREN` is `git rev-list --reverse BASE..old`; emit
the fact only when `CHILDREN` is non-empty and has more than one entry. -/
def fallbackPairFact (g : GitOps) (pr : String × String) : Option SquashFact :=
  if pr.1 ≠ pr.2 ∧ pr.2 ≠ "" then
    match (match g.mergeBase pr.1 pr.2 with
           | some b => some b
           | none => g.parentOf pr.2) with
    | some base =>
      if g.revListRev base pr.1 ≠ [] ∧ 1 < (g.revListRev base pr.1).length then
        some ⟨pr.2, base, g.revListRev base pr.1, "auto"⟩
      else none
    | none => none
  else none

/-- The fallback iteration as the spec describes it: "compute
`base = mergeBase(old,new)`, falling back to `new`'s immediate parent if
merge-base is unavailable; enumerate commits in `(base, old]` oldest-first
as `children`; emit a fact if more than one child results". Written from
the spec's words, for comparison with `fallbackPairFact`. -/
def fallbackPairFactSpec (g : GitOps) (pr : String × String) : Option SquashFact :=
  if pr.1 = pr.2 then none
  else
    match g.mergeBase pr.1 pr.2 with
    | some b =>
      if 1 < (g.revListRev b pr.1).length then
        some ⟨pr.2, b, g.revListRev b pr.1, "auto"⟩
      else none
    | none =>
      match g.parentOf pr.2 with
      | some b =>
        if 1 < (g.revListRev b pr.1).length then
          some ⟨pr.2, b, g.revListRev b pr.1, "auto"⟩
        else none
      | none => none

/-- The inputs of one `post-rewrite` invocation: the hook's first argument
(git passes `amend` or `rebase`), whether `.git/rebase-merge` and
`.git/rebase-apply` pass the script's `-f` tests, the session state
(present only when BOTH `.git/SQUASH_PRE_REBASE_COMMITS` and
`.git/SQUASH_PRE_REBASE_BASE` exist: the recorded base and commit list),
and the `(old, new)` pairs read from stdin. -/
structure PostRewriteInput where
  arg1 : String
  rebaseMerge : Bool
  rebaseApply : Bool
  session : Option (String × List String)
  pairs : List (String × String)

/-- Embedding of the whole `post-rewrite` script: exit 0 immediately unless
the first argument is `rebase` or a rebase state file is present; then run
the session-state branch when both session files exist, else the fallback
branch; in all cases finish with `exit 0` (every fallible command inside is
guarded by `|| true`, `2>/dev/null` or condition position, and the script
has no `set -e`). Returns the facts whose `add-metadata` invocation is
attempted, paired with the exit status. -/
def postRewriteRun (g : GitOps) (inp : PostRewriteInput) : List SquashFact × Nat :=
  if inp.arg1 ≠ "rebase" ∧ ¬ inp.rebaseMerge ∧ ¬ inp.rebaseApply then ([], 0)
  else
    match inp.session with
    | some (base, olds) => (inp.pairs.filterMap (sessionPairFact g base olds), 0)
    | none => (inp.pairs.filterMap (fallbackPairFact g), 0)

/-- The session-state reconciliation algorithm on its own, for stating which
algorithm the script selects. -/
def sessionReconcile (g : GitOps) (base : String) (olds : List String)
    (pairs : List (String × String)) : List SquashFact :=
  pairs.filterMap (sessionPairFact g base olds)

/-- The fallback reconciliation algorithm on its own. -/
def fallbackReconcile (g : GitOps) (pairs : List (String × String)) : List SquashFact :=
  pairs.filterMap (fallbackPairFact g)

/-! ## The `pre-rebase` hook -/

/-- The inputs of one `pre-rebase` invocation: `$2` is the upstream the rebase
was invoked with (empty when git passes none), `$3` the optional branch
being rebased, and `revList a b` the output of `git rev-list "a..b"`
(`none` when the command fails; the shell redirection still creates the
file, empty, in that case). -/
structure PreRebaseEnv where
  arg2 : String
  arg3 : String
  revList : String → String → Option (List String)

/-- The two session-state files the hooks communicate through:
`.git/SQUASH_PRE_REBASE_COMMITS` and `.git/SQUASH_PRE_REBASE_BASE`
(`none` = file absent). -/
structure SessionFiles where
  commitsFile : Option (List String)
  baseFile : Option String
deriving DecidableEq

/-- Embedding of the `pre-rebase` script: when `$2` is non-empty, write
`git rev-list "$2..$3"` (or `"$2..HEAD"` when `$3` is empty) into the
commits file — the redirection creates the file even when `rev-list`
fails, leaving it empty — and write `$2` into the base file; otherwise
touch nothing. Always `exit 0`. -/
def preRebaseRun (e : PreRebaseEnv) (files : SessionFiles) : SessionFiles × Nat :=
  if e.arg2 ≠ "" then
    (⟨some ((e.revList e.arg2 (if e.arg3 ≠ "" then e.arg3 else "HEAD")).getD []),
      some e.arg2⟩, 0)
  else (files, 0)

/-! ## The `post-merge` and `prepare-commit-msg` hooks -/

/-- The inputs of one `post-merge` invocation: the contents of
`.git/SQUASH_HEAD` and `.git/MERGE_HEAD` if present, and the current
`HEAD`. -/
structure PostMergeEnv where
  squashHead : Option String
  mergeHead : Option String
  currentHead : String

/-- Embedding of the `post-merge` script: exit 0 unless `.git/SQUASH_HEAD`
exists; read both marker files (`cat` of an absent file yields the empty
string) and proceed only when both contents are non-empty
(`[ -n "$MERGE_HEAD" ] && [ -n "$SQUASH_HEAD" ]`); compute `BASE` as
`git merge-base HEAD MERGE_HEAD`, else `HEAD^`, else skip; emit the fact
rooted at the current head with the commits of `BASE..MERGE_HEAD` when
that list is non-empty; remove the marker; always `exit 0`. -/
def postMergeRun (g : GitOps) (e : PostMergeEnv) : Option SquashFact × Nat :=
  match e.squashHead with
  | none => (none, 0)
  | some sh =>
    match e.mergeHead with
    | none => (none, 0)
    | some mh =>
      if mh ≠ "" ∧ sh ≠ "" then
        match (match g.mergeBase e.currentHead mh with
               | some b => some b
               | none => g.parentOf e.currentHead) with
        | none => (none, 0)
        | some base =>
          if g.revListRev base mh ≠ [] then
            (some ⟨e.currentHead, base, g.revListRev base mh, "auto"⟩, 0)
          else (none, 0)
      else (none, 0)

/-- Embedding of the `prepare-commit-msg` script: when `$2` is `squash` or
`merge`, touch the in-progress marker (and best-effort append the stopped
sha); always `exit 0`. Returns whether the marker was touched and the exit
status. -/
def prepareCommitMsgRun (arg2 : String) : Bool × Nat :=
  if arg2 = "squash" ∨ arg2 = "merge" then (true, 0) else (false, 0)

/-! ## Concrete environments used to evaluate the models -/

/-- The empty notes store. -/
def emptyStore : NotesStore := ⟨[]⟩

/-- A store already holding a fact keyed by the commit `r`. -/
def storeR : NotesStore := ⟨[("r", ⟨"r", "b0", ["x", "y"], "auto"⟩)]⟩

/-- An environment in which exactly `r` and `b` resolve (to themselves). -/
def envRB : RepoEnv :=
  { repoFound := true
    resolve := fun s => if s = "r" ∨ s = "b" then some s else none
    writeOk := true }

/-- An environment in which exactly `r`, `b`, `c1` and `c2` resolve. -/
def envABC : RepoEnv :=
  { repoFound := true
    resolve := fun s => if s = "r" ∨ s = "b" ∨ s = "c1" ∨ s = "c2" then some s else none
    writeOk := true }

/-- Git capabilities in which every commit resolves but no commit is an
ancestor of any other; merge-base, parent and range queries return
nothing. -/
def gResolvedNotAnc : GitOps :=
  { resolvable := fun _ => true
    isAncestor := fun _ _ => false
    mergeBase := fun _ _ => none
    parentOf := fun _ => none
    revListRev := fun _ _ => [] }

/-- Git capabilities in which no commit resolves. -/
def gUnresolvable : GitOps :=
  { resolvable := fun _ => false
    isAncestor := fun _ _ => false
    mergeBase := fun _ _ => none
    parentOf := fun _ => none
    revListRev := fun _ _ => [] }

/-- Git capabilities for a small linear history: the merge base of any two
commits is `b`, and the range `(b, o]` holds the two commits `c1`, `c2`
(oldest first). -/
def gLinear : GitOps :=
  { resolvable := fun _ => true
    isAncestor := fun _ _ => false
    mergeBase := fun _ _ => some "b"
    parentOf := fun _ => none
    revListRev := fun b o => if b = "b" ∧ o = "o" then ["c1", "c2"] else [] }

/-- A `post-rewrite` invocation for an amend (first argument `amend`, no
rebase state), with session state present and one rewritten pair. -/
def inpAmend : PostRewriteInput :=
  { arg1 := "amend"
    rebaseMerge := false
    rebaseApply := false
    session := some ("b", ["c1", "c2"])
    pairs := [("o", "n")] }

/-- A `pre-rebase` invocation with upstream `up` and branch `br`, where
`git rev-list up..br` lists `c1`, `c2`. -/
def preEnvUp : PreRebaseEnv :=
  { arg2 := "up"
    arg3 := "br"
    revList := fun a b => if a = "up" ∧ b = "br" then some ["c1", "c2"] else none }

/-- A `pre-rebase` invocation with no upstream argument. -/
def preEnvNoBase : PreRebaseEnv :=
  { arg2 := ""
    arg3 := ""
    revList := fun _ _ => none }

/-! ## Helper lemmas -/

theorem findGitRepo_eq_find (fs : Fs) (p : List String) :
    findGitRepo fs p = (ancestorChain p).find? (hasGitDir fs) := by
  suffices H : ∀ (n : Nat) (q : List String), q.length = n →
      findGitRepo fs q = (ancestorChain q).find? (hasGitDir fs) from H p.length p rfl
  intro n
  induction n using Nat.strong_induction_on with
  | _ n ih =>
    intro q hq
    rw [findGitRepo.eq_def, ancestorChain.eq_def]
    by_cases hs : fs.stat (q ++ [".git"]) = some FsEntry.dir
    · rw [if_pos hs, List.find?_cons_of_pos _ (by simp [hasGitDir, hs])]
    · rw [if_neg hs, List.find?_cons_of_neg _ (by simp [hasGitDir, hs])]
      cases q with
      | nil => rfl
      | cons x xs =>
        exact ih xs.length (by simp at hq; omega) (x :: xs).dropLast
          (by simp [List.dropLast])

theorem resolveChildren_error_msg (env : RepoEnv) (l : List String) (m : String)
    (h : resolveChildren env l = Except.error m) : m = "Error: invalid child" := by
  induction l with
  | nil => simp [resolveChildren] at h
  | cons c rest ih =>
    rw [resolveChildren] at h
    by_cases ht : String.mk (trimChars c.data) = ""
    · rw [if_pos ht] at h
      exact ih h
    · rw [if_neg ht] at h
      cases hr : env.resolve (String.mk (trimChars c.data)) with
      | none =>
        rw [hr] at h
        cases h
        rfl
      | some s =>
        rw [hr] at h
        cases hrc : resolveChildren env rest with
        | error m2 =>
          rw [hrc] at h
          cases h
          exact ih hrc
        | ok ks =>
          rw [hrc] at h
          cases h

theorem resolveChildren_ok_order (env : RepoEnv) (l : List String) (ks : List String)
    (h : resolveChildren env l = Except.ok ks) :
    ((l.map (fun c => String.mk (trimChars c.data))).filter
        (fun c => c ≠ "")).mapM env.resolve = some ks := by
  induction l generalizing ks with
  | nil =>
    simp [resolveChildren] at h
    subst h
    rfl
  | cons c rest ih =>
    rw [resolveChildren] at h
    by_cases ht : String.mk (trimChars c.data) = ""
    · rw [if_pos ht] at h
      simpa [ht] using ih ks h
    · rw [if_neg ht] at h
      cases hr : env.resolve (String.mk (trimChars c.data)) with
      | none => rw [hr] at h; cases h
      | some s =>
        rw [hr] at h
        cases hrc : resolveChildren env rest with
        | error m2 => rw [hrc] at h; cases h
        | ok ks2 =>
          rw [hrc] at h
          cases h
          have ihk := ih ks2 hrc
          simp only [List.map_cons, List.filter_cons]
          rw [if_pos (by simp [ht])]
          rw [List.mapM_cons, hr, ihk]
          rfl

/-! ## Claim theorems -/

/-- C10: repository discovery (`findGitRepo` in main.go, `repo.FindGitRepo`,
which is textually identical) returns the first — hence nearest — directory
in the upward chain from the start path whose `.git` entry is a directory,
and succeeds exactly when some directory on that chain contains such an
entry; the test requires a directory, so an ancestor whose `.git` is a
regular file (worktree or submodule layout) is passed over and contributes
nothing. -/
theorem findGitRepo_finds_nearest_gitdir (fs : Fs) (p : List String) :
    findGitRepo fs p = (ancestorChain p).find? (hasGitDir fs) ∧
    ((findGitRepo fs p).isSome ↔
      ∃ q ∈ ancestorChain p, fs.stat (q ++ [".git"]) = some FsEntry.dir) := by
  refine ⟨findGitRepo_eq_find fs p, ?_⟩
  rw [findGitRepo_eq_find fs p]
  simp [List.find?_isSome, hasGitDir]

/-- C1: evaluation of the session-state path at the failing input — session
base `b`, previously recorded commits `c1` and `c2` both still resolvable
and neither an ancestor of the rewritten commit `n`, rewrite pair `(o, n)`
with `o ≠ n`. The script appends a resolvable commit to its subsumed set
exactly when the commit IS an ancestor of the new commit
(`git merge-base --is-ancestor "$old" "$new_sha" && SQUASHED+=("$old")`),
so here its subsumed set is empty and it emits nothing, while the subsumed
set as the spec defines it (unresolvable or NOT an ancestor) is `[c1, c2]`
and the spec-described handler emits the fact rooted at `n`. -/
theorem sessionPath_inverted_ancestor_test :
    sessionSubsumed gResolvedNotAnc "n" ["c1", "c2"] = [] ∧
    sessionPairFact gResolvedNotAnc "b" ["c1", "c2"] ("o", "n") = none ∧
    sessionSubsumedSpec gResolvedNotAnc "n" ["c1", "c2"] = ["c1", "c2"] ∧
    sessionPairFactSpec gResolvedNotAnc "b" ["c1", "c2"] ("o", "n") =
      some ⟨"n", "b", ["c1", "c2"], "auto"⟩ :=
  ⟨by decide, by decide, by decide, by decide⟩

/-- C2 counterexample: with a fact already stored under the literal root `r`
and a child `c` that does not resolve, `add-metadata --root=r --base=b
--children=c` returns success (exit 0, store unchanged) without resolving
any ref, instead of failing with an invalid-ref error; so canonicalization
does not precede the existence check, and an unresolvable supplied ref is
not always rejected. -/
theorem addMetadata_skips_validation_when_fact_present :
    runAddMetadata envRB storeR "r" "b" "c" "auto" = ⟨0, none, storeR⟩ ∧
    envRB.resolve "c" = none :=
  ⟨by decide, by decide⟩

/-- C2 amended: `runAddMetadata` checks the store for a fact keyed by the
supplied (un-canonicalized) root first and, if one is present, returns
success without resolving or writing anything; only when none is present
does it canonicalize root, base and each child in that order, failing with
an invalid-ref diagnostic on the first unresolvable ref, and then write
the fact. -/
theorem addMetadata_check_then_canonicalize (env : RepoEnv) (store : NotesStore)
    (root base children strategy : String)
    (hroot : root ≠ "") (hbase : base ≠ "") (hch : children ≠ "")
    (hrepo : env.repoFound = true) :
    (hasMetadata store root = true →
      runAddMetadata env store root base children strategy = ⟨0, none, store⟩) ∧
    (hasMetadata store root = false → env.resolve root = none →
      runAddMetadata env store root base children strategy =
        ⟨1, some "Error: invalid root", store⟩) ∧
    (∀ rootShort, hasMetadata store root = false →
      env.resolve root = some rootShort → env.resolve base = none →
      runAddMetadata env store root base children strategy =
        ⟨1, some "Error: invalid base", store⟩) ∧
    (∀ rootShort baseShort m, hasMetadata store root = false →
      env.resolve root = some rootShort → env.resolve base = some baseShort →
      resolveChildren env (childFields children) = Except.error m →
      runAddMetadata env store root base children strategy = ⟨1, some m, store⟩ ∧
        m = "Error: invalid child") ∧
    (∀ rootShort baseShort ks, hasMetadata store root = false →
      env.resolve root = some rootShort → env.resolve base = some baseShort →
      resolveChildren env (childFields children) = Except.ok ks → ks ≠ [] →
      env.writeOk = true →
      runAddMetadata env store root base children strategy =
        ⟨0, none, writeMetadata store rootShort baseShort ks strategy⟩) := by
  have hflag : ¬(root = "" ∨ base = "" ∨ children = "") := by simp [hroot, hbase, hch]
  have hrepo2 : ¬¬(env.repoFound = true) := not_not_intro hrepo
  refine ⟨?_, ?_, ?_, ?_, ?_⟩
  · intro hf
    unfold runAddMetadata
    rw [if_neg hflag, if_neg hrepo2, if_pos hf]
  · intro hf hr
    unfold runAddMetadata
    rw [if_neg hflag, if_neg hrepo2, if_neg (by simp [hf]), hr]
  · intro rootShort hf hr hb
    unfold runAddMetadata
    rw [if_neg hflag, if_neg hrepo2, if_neg (by simp [hf]), hr, hb]
  · intro rootShort baseShort m hf hr hb hm
    refine ⟨?_, resolveChildren_error_msg env _ m hm⟩
    unfold runAddMetadata
    rw [if_neg hflag, if_neg hrepo2, if_neg (by simp [hf]), hr, hb, hm]
  · intro rootShort baseShort ks hf hr hb hks hne hw
    unfold runAddMetadata
    rw [if_neg hflag, if_neg hrepo2, if_neg (by simp [hf]), hr, hb, hks]
    dsimp only
    rw [if_neg hne, if_pos hw]

/-- Witness for the amended C2 theorem: a present fact short-circuits to
success, and an absent one leads to canonicalization and a write. -/
theorem addMetadata_check_then_canonicalize_witness :
    runAddMetadata envRB storeR "r" "b" "x" "auto" = ⟨0, none, storeR⟩ ∧
    runAddMetadata envABC emptyStore "r" "b" "c1,c2" "auto" =
      ⟨0, none, writeMetadata emptyStore "r" "b" ["c1", "c2"] "auto"⟩ :=
  ⟨(addMetadata_check_then_canonicalize envRB storeR "r" "b" "x" "auto" (by decide) (by decide)
      (by decide) rfl).1 (by decide),
   (addMetadata_check_then_canonicalize envABC emptyStore "r" "b" "c1,c2" "auto" (by decide)
      (by decide) (by decide) rfl).2.2.2.2 "r" "b" ["c1", "c2"] (by decide) (by decide)
      (by decide) rfl (by decide) rfl⟩

/-- C3: first write wins — when the store already holds a fact keyed by the
supplied root, a recorder invocation with that root succeeds (exit 0, no
diagnostic) and leaves the store, hence the stored fact, unchanged,
whatever base, children and strategy it supplies. -/
theorem recorder_first_write_wins (env : RepoEnv) (store : NotesStore)
    (root base children strategy : String)
    (hroot : root ≠ "") (hbase : base ≠ "") (hch : children ≠ "")
    (hrepo : env.repoFound = true)
    (hfact : hasMetadata store root = true) :
    runAddMetadata env store root base children strategy = ⟨0, none, store⟩ := by
  unfold runAddMetadata
  rw [if_neg (by simp [hroot, hbase, hch]), if_neg (not_not_intro hrepo), if_pos hfact]

/-- Witness for C3: the fact under `r` survives a second invocation with a
different (even unresolvable) base, children and strategy. -/
theorem recorder_first_write_wins_witness :
    runAddMetadata envRB storeR "r" "other" "alsoother" "manual" = ⟨0, none, storeR⟩ :=
  recorder_first_write_wins envRB storeR "r" "other" "alsoother" "manual" (by decide)
    (by decide) (by decide) rfl (by decide)

/-- C4 counterexample: for an amend-style rewrite (`post-rewrite` invoked with
first argument `amend`, no rebase state files) the hook exits at its first
guard and performs no reconciliation, even though session state is present
and the session algorithm applied to the same input would emit a fact; so
the reconciliation does not run after every commit-rewriting operation. -/
theorem postRewrite_ignores_amend :
    (postRewriteRun gUnresolvable inpAmend).1 = [] ∧
    sessionReconcile gUnresolvable "b" ["c1", "c2"] [("o", "n")] =
      [⟨"n", "b", ["c1", "c2"], "auto"⟩] :=
  ⟨by decide, by decide⟩

/-- C4 amended: the post-rewrite reconciliation runs only when the hook's
first argument is `rebase` or a rebase state file is present (so an
amend-style rewrite outside a rebase is skipped); whenever it does run,
the choice between the two reconciliation algorithms is determined solely
by whether the Pending-Rewrite Session State (both marker files) exists. -/
theorem postRewrite_gate_and_selection (g : GitOps) (inp : PostRewriteInput) :
    (inp.arg1 ≠ "rebase" → inp.rebaseMerge = false → inp.rebaseApply = false →
      (postRewriteRun g inp).1 = []) ∧
    ((inp.arg1 = "rebase" ∨ inp.rebaseMerge = true ∨ inp.rebaseApply = true) →
      (∀ base olds, inp.session = some (base, olds) →
        (postRewriteRun g inp).1 = sessionReconcile g base olds inp.pairs) ∧
      (inp.session = none →
        (postRewriteRun g inp).1 = fallbackReconcile g inp.pairs)) := by
  constructor
  · intro h1 h2 h3
    unfold postRewriteRun
    rw [if_pos ⟨h1, by simp [h2], by simp [h3]⟩]
  · intro hg
    have hcond : ¬(inp.arg1 ≠ "rebase" ∧ ¬(inp.rebaseMerge = true) ∧
        ¬(inp.rebaseApply = true)) := by
      rcases hg with h | h | h <;> simp [h]
    constructor
    · intro base olds hs
      unfold postRewriteRun sessionReconcile
      rw [if_neg hcond, hs]
    · intro hs
      unfold postRewriteRun fallbackReconcile
      rw [if_neg hcond, hs]

/-- Witness for the amended C4 theorem: the amend invocation is skipped, and a
rebase invocation without session state runs the fallback algorithm. -/
theorem postRewrite_gate_and_selection_witness :
    (postRewriteRun gUnresolvable inpAmend).1 = [] ∧
    (postRewriteRun gUnresolvable ⟨"rebase", false, false, none, [("o", "n")]⟩).1 =
      fallbackReconcile gUnresolvable [("o", "n")] :=
  ⟨(postRewrite_gate_and_selection gUnresolvable inpAmend).1 (by decide) rfl rfl,
   ((postRewrite_gate_and_selection gUnresolvable
      ⟨"rebase", false, false, none, [("o", "n")]⟩).2 (Or.inl rfl)).2 rfl⟩

/-- C5: the fallback path of `post-rewrite` computes, for every stdin pair
with distinct old and new commit (the new field being non-empty on hook
input), exactly what the spec describes: base is `mergeBase(old, new)`
falling back to the immediate parent of `new` when merge-base is
unavailable, children are the commits of `(base, old]` oldest first, and
the fact `{root := new, base, children, strategy := auto}` is emitted
exactly when more than one child results. -/
theorem fallback_matches_spec (g : GitOps) (pr : String × String) (h2 : pr.2 ≠ "") :
    fallbackPairFact g pr = fallbackPairFactSpec g pr := by
  unfold fallbackPairFact fallbackPairFactSpec
  by_cases he : pr.1 = pr.2
  · rw [if_neg (by simp [he]), if_pos he]
  · rw [if_pos ⟨he, h2⟩, if_neg he]
    cases hmb : g.mergeBase pr.1 pr.2 with
    | some b =>
      simp only
      by_cases hl : 1 < (g.revListRev b pr.1).length
      · rw [if_pos ⟨by intro h0; rw [h0] at hl; simp at hl, hl⟩, if_pos hl]
      · rw [if_neg (by tauto), if_neg hl]
    | none =>
      simp only
      cases hp : g.parentOf pr.2 with
      | some b =>
        simp only
        by_cases hl : 1 < (g.revListRev b pr.1).length
        · rw [if_pos ⟨by intro h0; rw [h0] at hl; simp at hl, hl⟩, if_pos hl]
        · rw [if_neg (by tauto), if_neg hl]
      | none => rfl

/-- Witness for C5 at a concrete linear history in which the fallback path
emits a two-child fact. -/
theorem fallback_matches_spec_witness :
    fallbackPairFact gLinear ("o", "n") = fallbackPairFactSpec gLinear ("o", "n") ∧
    fallbackPairFact gLinear ("o", "n") = some ⟨"n", "b", ["c1", "c2"], "auto"⟩ :=
  ⟨fallback_matches_spec gLinear ("o", "n") (by decide), by decide⟩

/-- C6 counterexample: invoking `add-metadata` with a missing required flag
exits 1 but prints `add-metadata requires --root, --base, and --children`,
which is not prefixed `Error:`. -/
theorem missing_flags_message_untagged :
    (runAddMetadata envRB emptyStore "" "b" "c" "auto").exitCode = 1 ∧
    (runAddMetadata envRB emptyStore "" "b" "c" "auto").stderrMsg =
      some "add-metadata requires --root, --base, and --children" ∧
    errPrefixed "add-metadata requires --root, --base, and --children" = false :=
  ⟨by decide, by decide, by decide⟩

/-- C6 amended: every modelled failing invocation of the command surface exits
1 with a diagnostic on standard error, and every success exits 0 with
none; every diagnostic begins with `Error:` except exactly three — the
missing-required-flags message (`add-metadata requires ...`, plain text,
no prefix), the write-failure message (`Error writing metadata`, no colon
after `Error`) and the tree-build-failure message
(`Error building squash tree`, likewise without the colon). -/
theorem cli_exit_discipline (envA : RepoEnv) (store : NotesStore)
    (root base children strategy : String) (envS : ShowEnv) (ref : String) :
    ((runAddMetadata envA store root base children strategy).exitCode = 0 ∧
       (runAddMetadata envA store root base children strategy).stderrMsg = none ∨
     (runAddMetadata envA store root base children strategy).exitCode = 1 ∧
       ∃ m, (runAddMetadata envA store root base children strategy).stderrMsg = some m ∧
         (errPrefixed m = true ∨ m = "Error writing metadata" ∨
          m = "add-metadata requires --root, --base, and --children")) ∧
    ((runShowTree envS ref).1 = 0 ∧ (runShowTree envS ref).2 = none ∨
     (runShowTree envS ref).1 = 1 ∧
       ∃ m, (runShowTree envS ref).2 = some m ∧
         (errPrefixed m = true ∨ m = "Error building squash tree")) := by
  constructor
  · by_cases hflag : root = "" ∨ base = "" ∨ children = ""
    · right
      unfold runAddMetadata
      rw [if_pos hflag]
      exact ⟨rfl, _, rfl, Or.inr (Or.inr rfl)⟩
    · by_cases hrepo : envA.repoFound = true
      case neg =>
        right
        unfold runAddMetadata
        rw [if_neg hflag, if_pos hrepo]
        exact ⟨rfl, _, rfl, Or.inl (by decide)⟩
      case pos =>
        by_cases hmeta : hasMetadata store root = true
        · left
          unfold runAddMetadata
          rw [if_neg hflag, if_neg (not_not_intro hrepo), if_pos hmeta]
          exact ⟨rfl, rfl⟩
        · cases hr : envA.resolve root with
          | none =>
            right
            unfold runAddMetadata
            rw [if_neg hflag, if_neg (not_not_intro hrepo), if_neg hmeta, hr]
            exact ⟨rfl, _, rfl, Or.inl (by decide)⟩
          | some rootShort =>
            cases hb : envA.resolve base with
            | none =>
              right
              unfold runAddMetadata
              rw [if_neg hflag, if_neg (not_not_intro hrepo), if_neg hmeta, hr, hb]
              exact ⟨rfl, _, rfl, Or.inl (by decide)⟩
            | some baseShort =>
              cases hrc : resolveChildren envA (childFields children) with
              | error m =>
                right
                unfold runAddMetadata
                rw [if_neg hflag, if_neg (not_not_intro hrepo), if_neg hmeta, hr, hb, hrc]
                refine ⟨rfl, m, rfl, Or.inl ?_⟩
                rw [resolveChildren_error_msg envA _ m hrc]
                decide
              | ok ks =>
                by_cases hks : ks = []
                · right
                  unfold runAddMetadata
                  rw [if_neg hflag, if_neg (not_not_intro hrepo), if_neg hmeta, hr, hb, hrc]
                  dsimp only
                  rw [if_pos hks]
                  exact ⟨rfl, _, rfl, Or.inl (by decide)⟩
                · by_cases hw : envA.writeOk = true
                  · left
                    unfold runAddMetadata
                    rw [if_neg hflag, if_neg (not_not_intro hrepo), if_neg hmeta, hr, hb, hrc]
                    dsimp only
                    rw [if_neg hks, if_pos hw]
                    exact ⟨rfl, rfl⟩
                  · right
                    unfold runAddMetadata
                    rw [if_neg hflag, if_neg (not_not_intro hrepo), if_neg hmeta, hr, hb, hrc]
                    dsimp only
                    rw [if_neg hks, if_neg hw]
                    exact ⟨rfl, _, rfl, Or.inr (Or.inl rfl)⟩
  · by_cases hrepo : envS.repoFound = true
    · cases hres : envS.resolve ref with
      | none =>
        right
        unfold runShowTree
        rw [if_neg (not_not_intro hrepo), hres]
        exact ⟨rfl, _, rfl, Or.inl (by decide)⟩
      | some h =>
        cases hb : envS.buildTree h with
        | error e =>
          right
          unfold runShowTree
          rw [if_neg (not_not_intro hrepo), hres]
          dsimp only
          rw [hb]
          exact ⟨rfl, _, rfl, Or.inr rfl⟩
        | ok t =>
          left
          unfold runShowTree
          rw [if_neg (not_not_intro hrepo), hres]
          dsimp only
          rw [hb]
          exact ⟨rfl, rfl⟩
    · right
      unfold runShowTree
      rw [if_pos hrepo]
      exact ⟨rfl, _, rfl, Or.inl (by decide)⟩

/-- C7 counterexample: the recorder enforces no distinctness and no
root-exclusion — `--children=c1,c1` writes a fact whose children are not
pairwise distinct, and `--children=r,c1` writes a fact whose children
contain its own root. -/
theorem recorder_writes_invalid_facts :
    runAddMetadata envABC emptyStore "r" "b" "c1,c1" "auto" =
      ⟨0, none, ⟨[("r", ⟨"r", "b", ["c1", "c1"], "auto"⟩)]⟩⟩ ∧
    ¬ (["c1", "c1"] : List String).Nodup ∧
    runAddMetadata envABC emptyStore "r" "b" "r,c1" "auto" =
      ⟨0, none, ⟨[("r", ⟨"r", "b", ["r", "c1"], "auto"⟩)]⟩⟩ ∧
    "r" ∈ (["r", "c1"] : List String) :=
  ⟨by decide, by decide, by decide, by decide⟩

/-- C7 amended: every fact the recorder writes has non-empty children, and the
stored children are exactly the resolutions of the caller-supplied
(trimmed, non-empty) comma fields in caller order — never re-sorted; the
data model's distinctness and root-exclusion invariants, however, are not
enforced by the recorder. -/
theorem recorder_preserves_child_order (env : RepoEnv) (store : NotesStore)
    (root base children strategy rootShort baseShort : String) (ks : List String)
    (hroot : root ≠ "") (hbase : base ≠ "") (hch : children ≠ "")
    (hrepo : env.repoFound = true) (hw : env.writeOk = true)
    (hmeta : hasMetadata store root = false)
    (hr : env.resolve root = some rootShort)
    (hb : env.resolve base = some baseShort)
    (hks : resolveChildren env (childFields children) = Except.ok ks)
    (hne : ks ≠ []) :
    runAddMetadata env store root base children strategy =
      ⟨0, none, writeMetadata store rootShort baseShort ks strategy⟩ ∧
    (trimmedChildArgs children).mapM env.resolve = some ks ∧
    (hasMetadata store rootShort = false →
      (writeMetadata store rootShort baseShort ks strategy).facts =
        store.facts ++ [(rootShort, ⟨rootShort, baseShort, ks, strategy⟩)]) := by
  refine ⟨?_, ?_, ?_⟩
  · unfold runAddMetadata
    rw [if_neg (by simp [hroot, hbase, hch]), if_neg (not_not_intro hrepo), if_neg (by simp [hmeta]),
      hr, hb, hks]
    dsimp only
    rw [if_neg hne, if_pos hw]
  · exact resolveChildren_ok_order env (childFields children) ks hks
  · intro habs
    unfold writeMetadata
    rw [if_neg (by simp [habs])]

/-- Witness for the amended C7 theorem, with whitespace-padded child fields
resolving in caller order. -/
theorem recorder_preserves_child_order_witness :
    runAddMetadata envABC emptyStore "r" "b" " c1 ,c2" "auto" =
      ⟨0, none, writeMetadata emptyStore "r" "b" ["c1", "c2"] "auto"⟩ ∧
    (trimmedChildArgs " c1 ,c2").mapM envABC.resolve = some ["c1", "c2"] :=
  ⟨(recorder_preserves_child_order envABC emptyStore "r" "b" " c1 ,c2" "auto" "r" "b"
      ["c1", "c2"] (by decide) (by decide) (by decide) rfl rfl (by decide) (by decide)
      (by decide) rfl (by decide)).1,
   (recorder_preserves_child_order envABC emptyStore "r" "b" " c1 ,c2" "auto" "r" "b"
      ["c1", "c2"] (by decide) (by decide) (by decide) rfl rfl (by decide) (by decide)
      (by decide) rfl (by decide)).2.1⟩

/-- C8: each of the four installed hook scripts finishes with exit status 0 on
every input and in every environment — unresolvable refs, absent marker or
session files and failed `add-metadata` invocations are all guarded by
`|| true`, `2>/dev/null` or condition position, and every control path
ends in `exit 0`, so a hook never aborts the surrounding git operation. -/
theorem hooks_always_exit_zero (e : PreRebaseEnv) (files : SessionFiles)
    (g : GitOps) (inp : PostRewriteInput) (pm : PostMergeEnv) (arg2 : String) :
    (preRebaseRun e files).2 = 0 ∧ (postRewriteRun g inp).2 = 0 ∧
    (postMergeRun g pm).2 = 0 ∧ (prepareCommitMsgRun arg2).2 = 0 := by
  refine ⟨?_, ?_, ?_, ?_⟩
  · unfold preRebaseRun
    split <;> rfl
  · unfold postRewriteRun
    repeat' first | rfl | split
  · unfold postMergeRun
    repeat' first | rfl | split
  · unfold prepareCommitMsgRun
    split <;> rfl

/-- C9: with a non-empty upstream argument, the pre-operation (`pre-rebase`)
handler writes the upstream ref into the session base file and the
`rev-list upstream..tip` output into the session commits file (tip is the
third argument when present, else `HEAD`; the file is created empty when
`rev-list` fails); with no upstream argument it leaves the session files
untouched. -/
theorem preRebase_records_session (e : PreRebaseEnv) (files : SessionFiles) :
    (e.arg2 ≠ "" →
      (preRebaseRun e files).1 =
        ⟨some ((e.revList e.arg2 (if e.arg3 ≠ "" then e.arg3 else "HEAD")).getD []),
         some e.arg2⟩) ∧
    (e.arg2 = "" → (preRebaseRun e files).1 = files) := by
  constructor
  · intro h
    unfold preRebaseRun
    rw [if_pos h]
  · intro h
    unfold preRebaseRun
    rw [if_neg (by simp [h])]

/-- Witness for C9: an upstream `up` with branch `br` records the enumerated
commits and the base, and an invocation without upstream changes
nothing. -/
theorem preRebase_records_session_witness :
    (preRebaseRun preEnvUp ⟨none, none⟩).1 = ⟨some ["c1", "c2"], some "up"⟩ ∧
    (preRebaseRun preEnvNoBase ⟨some ["z"], some "w"⟩).1 = ⟨some ["z"], some "w"⟩ :=
  ⟨(preRebase_records_session preEnvUp ⟨none, none⟩).1 (by decide),
   (preRebase_records_session preEnvNoBase ⟨some ["z"], some "w"⟩).2 rfl⟩

end SquashTree
